import Mathlib

/-!
# CryptoDevsDAO client (pages/index.js)

A shallow embedding of the `Home` component of `src/my-app/pages/index.js`:
the React state, the asynchronous handlers that talk to the wallet and to the
DAO contract, and the two tab renderers.

Conventions of the embedding.

* The React state variables are the fields of `Client`; a `setX(v)` call is a
  record update.  No handler reads a state variable after writing it, so
  explicit state passing agrees with the closure semantics of the hooks.
* The outside world (wallet, network, contract) is an `Env`: the answers the
  awaited calls give while one handler runs.  A rejected promise is
  `Except.error`.
* `Client.log` is an observation trace (alerts, `console.error`, handler
  entries, accepted and confirmed transactions); the source has no such
  variable, it records what the handlers did.
* `Date.now()` is the argument `now` of the renderers (milliseconds); the two
  calls made while one card is rendered read the same instant.
-/

namespace CryptoDevsDAO

/-! ## Data model -/

/-- A thrown JavaScript value: `message` is `err.message`, `data` is
`err.data.message` when `err.data` is present (the contract's revert reason). -/
structure JSError where
  message : String
  data : Option String
deriving DecidableEq, Repr

/-- The record returned by `daoContract.proposals(id)`. -/
structure RawProposal where
  nftTokenId : Nat
  deadline : Nat
  yayVotes : Nat
  nayVotes : Nat
  executed : Bool
deriving DecidableEq, Repr

/-- The object built in `fetchProposalById` (`parsedProposal`).  `deadline` is
the time value of the `Date` (`p.deadline.getTime()`), `none` for an invalid
`Date`, whose time value is `NaN`. -/
structure Proposal where
  proposalId : Nat
  nftTokenId : String
  deadline : Option Int
  yayVotes : Nat
  nayVotes : Nat
  executed : Bool
deriving DecidableEq, Repr

/-- The three state-changing contract calls, with the arguments the client
passes (`voteOnProposal(vote, proposalId)` in that order). -/
inductive ChainCall where
  | createProposal (tokenId : String)
  | voteOnProposal (vote : Nat) (proposalId : Nat)
  | executeProposal (proposalId : Nat)
deriving DecidableEq, Repr

/-- The client functions whose entry is recorded in the trace. -/
inductive Fn where
  | getProviderOrSigner
  | connectWallet
  | getNumProposalsInDAO
  | createProposal
  | fetchProposalById
  | fetchAllProposals
  | voteOnProposal
  | executeProposal
deriving DecidableEq, Repr

/-- One observation of the trace. -/
inductive Event where
  | alert (msg : String)
  | consoleError (err : JSError)
  | invoke (fn : Fn)
  | submitted (call : ChainCall)
  | confirmed
deriving DecidableEq, Repr

/-- The React state of `Home` (the `useState` variables), with the trace.
`numProposals` and `treasuryBalance` are decimal strings in the source and are
kept as the numbers they denote; an entry `none` of `proposals` is
`undefined`. -/
structure Client where
  walletConnected : Bool
  nftBalance : Nat
  treasuryBalance : Nat
  numProposals : Nat
  proposals : List (Option Proposal)
  fakeNftTokenId : String
  selectedTab : String
  loading : Bool
  log : List Event
deriving DecidableEq, Repr

/-- A pending transaction: the outcome of `txn.wait()`. -/
structure Txn where
  wait : Except JSError Unit

/-- The answers of the wallet, the network and the DAO contract.  `toTime` is
the JavaScript conversion `new Date(parseInt(s * 1000)).getTime()` applied to
the decimal string of the raw deadline; it is kept abstract. -/
structure Env where
  connect : Except JSError Unit
  getNetwork : Except JSError Nat
  numProposals : Except JSError Nat
  proposals : Nat → Except JSError RawProposal
  createProposal : String → Except JSError Txn
  voteOnProposal : Nat → Nat → Except JSError Txn
  executeProposal : Nat → Except JSError Txn
  toTime : Nat → Option Int

/-- What `getProviderOrSigner` returns: `web3Provider` or its signer. -/
inductive Handle where
  | provider
  | signer
deriving DecidableEq, Repr

/-- Append one observation to the trace. -/
def Client.emit (s : Client) (e : Event) : Client :=
  { s with log := s.log ++ [e] }

/-- The `TypeError` raised by a property access on `undefined`. -/
def typeError : JSError :=
  ⟨"TypeError: Cannot read properties of undefined", none⟩

/-! ## Wallet and reads -/

/-- The function `getProviderOrSigner(needSigner)`: connect, read the chain id,
reject every chain id other than 5 with an alert and a thrown error. -/
def getProviderOrSigner (env : Env) (needSigner : Bool) (s : Client) :
    Except JSError Handle × Client :=
  let s0 := s.emit (.invoke .getProviderOrSigner)
  match env.connect with
  | .error e => (.error e, s0)
  | .ok _ =>
    match env.getNetwork with
    | .error e => (.error e, s0)
    | .ok chainId =>
      if chainId ≠ 5 then
        (.error ⟨"Change network to Goerli", none⟩,
          s0.emit (.alert "Change the network to Goerli"))
      else if needSigner then (.ok .signer, s0)
      else (.ok .provider, s0)

/-- The function `connectWallet`. -/
def connectWallet (env : Env) (s : Client) : Client :=
  let s0 := s.emit (.invoke .connectWallet)
  match getProviderOrSigner env false s0 with
  | (.ok _, s1) => { s1 with walletConnected := true }
  | (.error e, s1) => s1.emit (.consoleError e)

/-- The function `getNumProposalsInDAO`. -/
def getNumProposalsInDAO (env : Env) (s : Client) : Client :=
  let s0 := s.emit (.invoke .getNumProposalsInDAO)
  match getProviderOrSigner env false s0 with
  | (.error e, s1) => s1.emit (.consoleError e)
  | (.ok _, s1) =>
    match env.numProposals with
    | .error e => s1.emit (.consoleError e)
    | .ok n => { s1 with numProposals := n }

/-- The object literal `parsedProposal` of `fetchProposalById`. -/
def parseProposal (env : Env) (id : Nat) (raw : RawProposal) : Proposal :=
  { proposalId := id
    nftTokenId := toString raw.nftTokenId
    deadline := env.toTime raw.deadline
    yayVotes := raw.yayVotes
    nayVotes := raw.nayVotes
    executed := raw.executed }

/-- The function `fetchProposalById(id)`: a failure is logged and the function
returns `undefined` (`none`). -/
def fetchProposalById (env : Env) (id : Nat) (s : Client) :
    Option Proposal × Client :=
  let s0 := s.emit (.invoke .fetchProposalById)
  match getProviderOrSigner env false s0 with
  | (.error e, s1) => (none, s1.emit (.consoleError e))
  | (.ok _, s1) =>
    match env.proposals id with
    | .error e => (none, s1.emit (.consoleError e))
    | .ok raw => (some (parseProposal env id raw), s1)

/-- The `for` loop of `fetchAllProposals`: `k` iterations remain, `i` is the
loop variable and `acc` the local array `proposals`. -/
def fetchLoop (env : Env) :
    Nat → Nat → List (Option Proposal) → Client → List (Option Proposal) × Client
  | 0, _, acc, s => (acc, s)
  | k + 1, i, acc, s =>
    let r := fetchProposalById env i s
    fetchLoop env k (i + 1) (acc ++ [r.1]) r.2

/-- The function `fetchAllProposals`: the loop runs `numProposals` times from
`i = 0`, then `setProposals` stores the array.  Nothing inside the `try` block
throws, because `fetchProposalById` catches its own failures. -/
def fetchAllProposals (env : Env) (s : Client) : Client :=
  let s0 := s.emit (.invoke .fetchAllProposals)
  let r := fetchLoop env s0.numProposals 0 [] s0
  { r.2 with proposals := r.1 }

/-! ## Writes -/

/-- The line `let vote = _vote == "YAY" ? 0 : 1` of `voteOnProposal`. -/
def voteCode (vote : String) : Nat :=
  if vote = "YAY" then 0 else 1

/-- The `catch` block of `voteOnProposal` and `executeProposal`:
`console.error(err)` and then `window.alert(err.data.message)`, which throws
when `err.data` is absent. -/
def catchAlert (e : JSError) (s : Client) : Except JSError Unit × Client :=
  let s0 := s.emit (.consoleError e)
  match e.data with
  | some m => (.ok (), s0.emit (.alert m))
  | none => (.error typeError, s0)

/-- The function `createProposal`. -/
def createProposal (env : Env) (s : Client) : Client :=
  let s0 := s.emit (.invoke .createProposal)
  match getProviderOrSigner env true s0 with
  | (.error e, s1) => s1.emit (.consoleError e)
  | (.ok _, s1) =>
    match env.createProposal s1.fakeNftTokenId with
    | .error e => s1.emit (.consoleError e)
    | .ok txn =>
      let s2 := { s1.emit (.submitted (.createProposal s1.fakeNftTokenId)) with
                  loading := true }
      match txn.wait with
      | .error e => s2.emit (.consoleError e)
      | .ok _ =>
        let s3 := getNumProposalsInDAO env (s2.emit .confirmed)
        { s3 with loading := false }

/-- The function `voteOnProposal(proposalId, _vote)`. -/
def voteOnProposal (env : Env) (proposalId : Nat) (vote : String) (s : Client) :
    Except JSError Unit × Client :=
  let s0 := s.emit (.invoke .voteOnProposal)
  match getProviderOrSigner env true s0 with
  | (.error e, s1) => catchAlert e s1
  | (.ok _, s1) =>
    match env.voteOnProposal (voteCode vote) proposalId with
    | .error e => catchAlert e s1
    | .ok txn =>
      let s2 := { s1.emit (.submitted (.voteOnProposal (voteCode vote) proposalId)) with
                  loading := true }
      match txn.wait with
      | .error e => catchAlert e s2
      | .ok _ =>
        (.ok (), fetchAllProposals env { s2.emit .confirmed with loading := false })

/-- The function `executeProposal(proposalId)`. -/
def executeProposal (env : Env) (proposalId : Nat) (s : Client) :
    Except JSError Unit × Client :=
  let s0 := s.emit (.invoke .executeProposal)
  match getProviderOrSigner env true s0 with
  | (.error e, s1) => catchAlert e s1
  | (.ok _, s1) =>
    match env.executeProposal proposalId with
    | .error e => catchAlert e s1
    | .ok txn =>
      let s2 := { s1.emit (.submitted (.executeProposal proposalId)) with
                  loading := true }
      match txn.wait with
      | .error e => catchAlert e s2
      | .ok _ =>
        (.ok (), fetchAllProposals env { s2.emit .confirmed with loading := false })

/-! ## Rendering -/

/-- An `onClick` handler of a rendered button. -/
inductive Trigger where
  | createProposal
  | voteOnProposal (proposalId : Nat) (vote : String)
  | executeProposal (proposalId : Nat)
deriving DecidableEq, Repr

/-- The comparison `t > now` of JavaScript numbers, false when `t` is `NaN`. -/
def jsGt (t : Option Int) (now : Int) : Bool :=
  match t with
  | some d => decide (d > now)
  | none => false

/-- The comparison `t < now` of JavaScript numbers, false when `t` is `NaN`. -/
def jsLt (t : Option Int) (now : Int) : Bool :=
  match t with
  | some d => decide (d < now)
  | none => false

/-- The conditional of a proposal card in `renderViewProposalsTab`: the
handlers of the buttons it renders.  The last branch is the text
"Proposal Executed", with no button. -/
def proposalActions (p : Proposal) (now : Int) : List Trigger :=
  if jsGt p.deadline now && !p.executed then
    [.voteOnProposal p.proposalId "YAY", .voteOnProposal p.proposalId "YAY"]
  else if jsLt p.deadline now && !p.executed then
    [.executeProposal p.proposalId]
  else
    []

/-- What a tab renders, reduced to its branch and the handlers it offers. -/
inductive View where
  | loading
  | noNFTs
  | createForm (actions : List Trigger)
  | noProposals
  | cards (cs : List (Proposal × List Trigger))
deriving DecidableEq, Repr

/-- The `proposals.map` of `renderViewProposalsTab`; the first property read
on an `undefined` entry throws. -/
def renderCards (now : Int) :
    List (Option Proposal) → Except JSError (List (Proposal × List Trigger))
  | [] => .ok []
  | none :: _ => .error typeError
  | some p :: ps =>
    match renderCards now ps with
    | .error e => .error e
    | .ok cs => .ok ((p, proposalActions p now) :: cs)

/-- The function `renderCreateProposalTab`. -/
def renderCreateProposalTab (s : Client) : View :=
  if s.loading then .loading
  else if s.nftBalance = 0 then .noNFTs
  else .createForm [.createProposal]

/-- The function `renderViewProposalsTab`. -/
def renderViewProposalsTab (s : Client) (now : Int) : Except JSError View :=
  if s.loading then .ok .loading
  else if s.proposals.length = 0 then .ok .noProposals
  else
    match renderCards now s.proposals with
    | .error e => .error e
    | .ok cs => .ok (.cards cs)

/-- The state variables of a client, without the trace. -/
def Client.data (s : Client) :
    Bool × Nat × Nat × Nat × List (Option Proposal) × String × String × Bool :=
  (s.walletConnected, s.nftBalance, s.treasuryBalance, s.numProposals,
    s.proposals, s.fakeNftTokenId, s.selectedTab, s.loading)

/-- The events appended to the trace between the states `s` and `t`. -/
def newEvents (s t : Client) : List Event :=
  t.log.drop s.log.length

/-- The trace `evs` holds a confirmation followed, later, by an entry into
`fn`. -/
def invokedAfterConfirmation (fn : Fn) (evs : List Event) : Bool :=
  ((evs.dropWhile (fun e => e != Event.confirmed)).contains (Event.invoke fn))

/-- The vote code a handler passes to the contract: `voteOnProposal` sends
`voteCode` of its second argument, the other handlers send no vote. -/
def Trigger.voteSent : Trigger → Option Nat
  | .voteOnProposal _ vote => some (voteCode vote)
  | _ => none

/-! ## Sample inputs -/

/-- A proposal with id 0 whose voting deadline is the instant 2000. -/
def sampleProposal : Proposal :=
  { proposalId := 0, nftTokenId := "7", deadline := some 2000,
    yayVotes := 3, nayVotes := 1, executed := false }

/-- The initial React state of `Home`. -/
def initialClient : Client :=
  { walletConnected := false, nftBalance := 0, treasuryBalance := 0,
    numProposals := 0, proposals := [], fakeNftTokenId := "",
    selectedTab := "", loading := false, log := [] }

/-- A world on Goerli where every call succeeds and two proposals exist. -/
def goodEnv : Env :=
  { connect := .ok ()
    getNetwork := .ok 5
    numProposals := .ok 2
    proposals := fun i => .ok ⟨i + 10, 2, 3, 1, false⟩
    createProposal := fun _ => .ok ⟨.ok ()⟩
    voteOnProposal := fun _ _ => .ok ⟨.ok ()⟩
    executeProposal := fun _ => .ok ⟨.ok ()⟩
    toTime := fun sec => some ((sec : Int) * 1000) }

/-- The initial state of a caller who holds no NFT, with one open proposal in
the catalog. -/
def zeroWeightClient : Client :=
  { initialClient with nftBalance := 0, proposals := [some sampleProposal] }

/-- The world of `goodEnv` where the read of proposal 1 is rejected. -/
def readFailEnv : Env :=
  { goodEnv with
    proposals := fun i =>
      if i = 1 then .error ⟨"call revert exception", none⟩ else goodEnv.proposals i }

/-- A state whose catalog holds one proposal while the chain has three. -/
def staleClient : Client :=
  { initialClient with numProposals := 3, proposals := [some sampleProposal] }

/-- The world of `goodEnv` where every transaction is accepted and its
confirmation is rejected. -/
def waitFailEnv : Env :=
  { goodEnv with
    createProposal := fun _ => .ok ⟨.error ⟨"transaction failed", none⟩⟩
    voteOnProposal := fun _ _ => .ok ⟨.error ⟨"transaction failed", none⟩⟩
    executeProposal := fun _ => .ok ⟨.error ⟨"transaction failed", none⟩⟩ }

/-- The world of `goodEnv` connected to chain id 1 instead of 5. -/
def wrongNetEnv : Env :=
  { goodEnv with getNetwork := .ok 1 }

/-! ## The action gate -/

/-- C1: for a proposal whose deadline is the instant `d`, the conditional of
the card offers no Execute handler while `now < d` and no vote handler once
`d ≤ now`. -/
theorem gate_no_early_execute_no_late_vote (p : Proposal) (now d : Int)
    (hd : p.deadline = some d) :
    (now < d → ∀ id, Trigger.executeProposal id ∉ proposalActions p now) ∧
    (d ≤ now → ∀ id vote, Trigger.voteOnProposal id vote ∉ proposalActions p now) := by
  constructor
  · intro hlt id
    have h1 : ¬ d < now := by omega
    by_cases hg : d > now <;> cases hx : p.executed <;>
      simp [proposalActions, jsGt, jsLt, hd, hx, hg, h1]
  · intro hle id vote
    have h1 : ¬ d > now := by omega
    by_cases hl : d < now <;> cases hx : p.executed <;>
      simp [proposalActions, jsGt, jsLt, hd, hx, hl, h1]

/-- Witness of C1 on the sample proposal (deadline 2000): no Execute at the
instant 1000 and no vote at the instant 2000. -/
theorem gate_no_early_execute_no_late_vote_witness :
    sampleProposal.deadline = some 2000 ∧
    Trigger.executeProposal 0 ∉ proposalActions sampleProposal 1000 ∧
    Trigger.voteOnProposal 0 "YAY" ∉ proposalActions sampleProposal 2000 :=
  ⟨rfl,
   (gate_no_early_execute_no_late_vote sampleProposal 1000 2000 rfl).1 (by decide) 0,
   (gate_no_early_execute_no_late_vote sampleProposal 2000 2000 rfl).2 (by decide) 0 "YAY"⟩

/-- C2 (evaluation at the failing input): the sample proposal is not executed
and its deadline is 2000; at `now = 2000` the card offers no handler at all,
and Execute appears only from `now = 2001` on. -/
theorem gate_at_deadline_offers_nothing :
    sampleProposal.executed = false ∧ sampleProposal.deadline = some 2000 ∧
    proposalActions sampleProposal 2000 = [] ∧
    proposalActions sampleProposal 2001 = [Trigger.executeProposal 0] := by
  decide

/-- Strictly after the deadline an unexecuted proposal offers exactly the
Execute handler. -/
theorem gate_after_deadline (p : Proposal) (now d : Int)
    (hd : p.deadline = some d) (hx : p.executed = false) (hlt : d < now) :
    proposalActions p now = [Trigger.executeProposal p.proposalId] := by
  have h1 : ¬ d > now := by omega
  simp [proposalActions, jsGt, jsLt, hd, hx, hlt, h1]

/-- C10: an executed proposal offers no handler, whatever the instant and
whatever its deadline. -/
theorem gate_executed_offers_nothing (p : Proposal) (now : Int)
    (hx : p.executed = true) : proposalActions p now = [] := by
  simp [proposalActions, hx]

/-- Witness of C10: the sample proposal, once executed, offers nothing before,
at and after its deadline. -/
theorem gate_executed_offers_nothing_witness :
    ({ sampleProposal with executed := true } : Proposal).executed = true ∧
    proposalActions { sampleProposal with executed := true } 1000 = [] ∧
    proposalActions { sampleProposal with executed := true } 2000 = [] ∧
    proposalActions { sampleProposal with executed := true } 3000 = [] :=
  ⟨rfl,
   gate_executed_offers_nothing { sampleProposal with executed := true } 1000 rfl,
   gate_executed_offers_nothing { sampleProposal with executed := true } 2000 rfl,
   gate_executed_offers_nothing { sampleProposal with executed := true } 3000 rfl⟩

/-- C3 (evaluation at the failing input): for a caller with `nftBalance = 0`
the View Proposals tab renders both vote buttons of an open proposal and the
Execute button of a closed one, while the Create Proposal tab of the same
state refuses with the no-NFT message. -/
theorem view_tab_ignores_zero_weight :
    zeroWeightClient.nftBalance = 0 ∧
    renderViewProposalsTab zeroWeightClient 1000 =
      .ok (.cards [(sampleProposal,
        [Trigger.voteOnProposal 0 "YAY", Trigger.voteOnProposal 0 "YAY"])]) ∧
    renderViewProposalsTab zeroWeightClient 3000 =
      .ok (.cards [(sampleProposal, [Trigger.executeProposal 0])]) ∧
    renderCreateProposalTab zeroWeightClient = View.noNFTs :=
  ⟨rfl, rfl, rfl, rfl⟩

/-- The View Proposals tab renders the same thing whatever the NFT balance
of the caller. -/
theorem view_tab_independent_of_balance (s : Client) (n : Nat) (now : Int) :
    renderViewProposalsTab { s with nftBalance := n } now =
      renderViewProposalsTab s now :=
  rfl

/-- C4 (evaluation at the failing input): both buttons of the open sample
proposal call `voteOnProposal` with "YAY", so both send the vote code 0;
the handler itself would encode any other choice as 1. -/
theorem gate_offers_two_yay_votes :
    proposalActions sampleProposal 1000 =
      [Trigger.voteOnProposal 0 "YAY", Trigger.voteOnProposal 0 "YAY"] ∧
    (proposalActions sampleProposal 1000).map Trigger.voteSent = [some 0, some 0] ∧
    voteCode "NAY" = 1 := by
  decide

/-- No card ever offers a handler that sends the vote code 1. -/
theorem gate_never_sends_nay (p : Proposal) (now : Int) :
    ((proposalActions p now).map Trigger.voteSent).contains (some 1) = false := by
  unfold proposalActions
  split
  · simp [Trigger.voteSent, voteCode]
  · split <;> simp [Trigger.voteSent]

/-! ## Reading the catalog -/

/-- The answer of `getProviderOrSigner` depends on the world only, not on the
React state. -/
theorem getProviderOrSigner_fst_indep (env : Env) (b : Bool) (s t : Client) :
    (getProviderOrSigner env b s).1 = (getProviderOrSigner env b t).1 := by
  unfold getProviderOrSigner
  cases env.connect with
  | error e => rfl
  | ok u =>
    cases env.getNetwork with
    | error e => rfl
    | ok c =>
      by_cases hc : c = 5
      · cases b <;> simp [hc]
      · simp [hc]

/-- The value `fetchProposalById` returns depends on the world only. -/
theorem fetchProposalById_fst_indep (env : Env) (i : Nat) (s t : Client) :
    (fetchProposalById env i s).1 = (fetchProposalById env i t).1 := by
  have h := getProviderOrSigner_fst_indep env false
    (s.emit (.invoke .fetchProposalById)) (t.emit (.invoke .fetchProposalById))
  rcases hs : getProviderOrSigner env false (s.emit (.invoke .fetchProposalById)) with ⟨rs, s1⟩
  rcases ht : getProviderOrSigner env false (t.emit (.invoke .fetchProposalById)) with ⟨rt, t1⟩
  rw [hs, ht] at h
  simp only at h
  subst h
  simp only [fetchProposalById, hs, ht]
  cases rs with
  | error e => rfl
  | ok hdl => cases env.proposals i <;> rfl

/-- A proposal returned by `fetchProposalById(i)` carries `proposalId = i`. -/
theorem fetchProposalById_id (env : Env) (i : Nat) (s : Client) (p : Proposal)
    (h : (fetchProposalById env i s).1 = some p) : p.proposalId = i := by
  rcases hs : getProviderOrSigner env false (s.emit (.invoke .fetchProposalById)) with ⟨rs, s1⟩
  simp only [fetchProposalById, hs] at h
  cases rs with
  | error e => simp at h
  | ok hdl =>
    cases hp : env.proposals i with
    | error e => simp [hp] at h
    | ok raw =>
      simp [hp] at h
      rw [← h]
      rfl

/-- The array built by the loop: the accumulator followed by the values of
`fetchProposalById(j)` for `j = i, ..., i + k - 1`, in that order. -/
theorem fetchLoop_fst (env : Env) (t : Client) :
    ∀ (k i : Nat) (acc : List (Option Proposal)) (s : Client),
      (fetchLoop env k i acc s).1 =
        acc ++ (List.range' i k).map (fun j => (fetchProposalById env j t).1) := by
  intro k
  induction k with
  | zero => intro i acc s; simp [fetchLoop]
  | succ k ih =>
    intro i acc s
    simp only [fetchLoop]
    rw [ih, fetchProposalById_fst_indep env i s t]
    simp [List.range'_succ]

/-- The catalog stored by `fetchAllProposals`: one entry per id below
`numProposals`, in ascending order, each the value of `fetchProposalById`. -/
theorem fetchAllProposals_proposals (env : Env) (s t : Client) :
    (fetchAllProposals env s).proposals =
      (List.range s.numProposals).map (fun j => (fetchProposalById env j t).1) := by
  unfold fetchAllProposals
  simp only [fetchLoop_fst env t]
  simp [Client.emit, List.range_eq_range']

/-- C6: when `fetchProposalById` returns a proposal for every id below
`numProposals`, the catalog stored by `fetchAllProposals` has exactly
`numProposals` entries, its `i`-th entry is a proposal with `proposalId = i`,
and it is empty when `numProposals = 0`. -/
theorem fetchAllProposals_catalog (env : Env) (s : Client)
    (hread : ∀ i, i < s.numProposals →
      ∀ t : Client, ∃ p, (fetchProposalById env i t).1 = some p) :
    (fetchAllProposals env s).proposals.length = s.numProposals ∧
    (∀ i, i < s.numProposals →
      ∃ p, (fetchAllProposals env s).proposals[i]? = some (some p) ∧ p.proposalId = i) ∧
    (s.numProposals = 0 → (fetchAllProposals env s).proposals = []) := by
  rw [fetchAllProposals_proposals env s s]
  refine ⟨by simp, ?_, ?_⟩
  · intro i hi
    obtain ⟨p, hp⟩ := hread i hi s
    refine ⟨p, ?_, fetchProposalById_id env i s p hp⟩
    simp [List.getElem?_map, List.getElem?_range hi, hp]
  · intro h0
    simp [h0]

/-- Every read of `goodEnv` succeeds. -/
theorem goodEnv_reads (i : Nat) (t : Client) :
    ∃ p, (fetchProposalById goodEnv i t).1 = some p :=
  ⟨parseProposal goodEnv i ⟨i + 10, 2, 3, 1, false⟩, rfl⟩

/-- Witness of C6: with two proposals on the chain and every read successful,
the catalog has two entries, carrying the ids 0 and 1. -/
theorem fetchAllProposals_catalog_witness :
    (fetchAllProposals goodEnv { initialClient with numProposals := 2 }).proposals.length = 2 ∧
    (∃ p, (fetchAllProposals goodEnv { initialClient with numProposals := 2 }).proposals[1]?
        = some (some p) ∧ p.proposalId = 1) :=
  ⟨(fetchAllProposals_catalog goodEnv { initialClient with numProposals := 2 }
      (fun i _ t => goodEnv_reads i t)).1,
   (fetchAllProposals_catalog goodEnv { initialClient with numProposals := 2 }
      (fun i _ t => goodEnv_reads i t)).2.1 1 (by decide)⟩

/-- C5 (evaluation at the failing input): three proposals on the chain, the
read of id 1 rejected, a previous catalog of one proposal.  After
`fetchAllProposals` the catalog is a new array of three entries whose middle
entry is `undefined`, not the previous catalog, and rendering it throws. -/
theorem fetchAllProposals_partial_overwrite :
    (fetchProposalById readFailEnv 1 staleClient).1 = none ∧
    staleClient.proposals = [some sampleProposal] ∧
    (fetchAllProposals readFailEnv staleClient).proposals =
      [some (parseProposal goodEnv 0 ⟨10, 2, 3, 1, false⟩), none,
       some (parseProposal goodEnv 2 ⟨12, 2, 3, 1, false⟩)] ∧
    (fetchAllProposals readFailEnv staleClient).proposals ≠ staleClient.proposals ∧
    renderViewProposalsTab (fetchAllProposals readFailEnv staleClient) 1000 =
      .error typeError := by
  refine ⟨rfl, rfl, by decide, by decide, rfl⟩

/-! ## The network check -/

/-- On the required network `getProviderOrSigner` returns a handle and only
records its own entry. -/
theorem getProviderOrSigner_ok (env : Env) (b : Bool) (s : Client)
    (hconn : env.connect = .ok ()) (hnet : env.getNetwork = .ok 5) :
    getProviderOrSigner env b s =
      (.ok (if b then Handle.signer else Handle.provider),
        s.emit (.invoke .getProviderOrSigner)) := by
  cases b <;> simp [getProviderOrSigner, hconn, hnet]

/-- C8: once the wallet is connected to a network with chain id `c`,
`getProviderOrSigner` returns a handle exactly when `c = 5`; for every other
`c` it throws "Change network to Goerli" after the alert
"Change the network to Goerli", and `connectWallet` leaves `walletConnected`
as it was. -/
theorem getProviderOrSigner_network_check (env : Env) (needSigner : Bool)
    (s : Client) (c : Nat)
    (hconn : env.connect = .ok ()) (hnet : env.getNetwork = .ok c) :
    ((∃ h, (getProviderOrSigner env needSigner s).1 = .ok h) ↔ c = 5) ∧
    (c ≠ 5 →
      (getProviderOrSigner env needSigner s).1 =
        .error ⟨"Change network to Goerli", none⟩ ∧
      newEvents s (getProviderOrSigner env needSigner s).2 =
        [Event.invoke Fn.getProviderOrSigner, Event.alert "Change the network to Goerli"] ∧
      (connectWallet env s).walletConnected = s.walletConnected) := by
  by_cases hc : c = 5
  · subst hc
    refine ⟨?_, fun h => absurd rfl h⟩
    rw [getProviderOrSigner_ok env needSigner s hconn hnet]
    simp
  · refine ⟨?_, fun _ => ⟨?_, ?_, ?_⟩⟩
    · simp [getProviderOrSigner, hconn, hnet, hc]
    · simp [getProviderOrSigner, hconn, hnet, hc]
    · simp [getProviderOrSigner, hconn, hnet, hc, newEvents, Client.emit]
    · simp [connectWallet, getProviderOrSigner, hconn, hnet, hc, Client.emit]

/-- Witness of C8 on chain id 1: the call throws and `walletConnected` stays
false. -/
theorem getProviderOrSigner_network_check_witness :
    wrongNetEnv.connect = .ok () ∧ wrongNetEnv.getNetwork = .ok 1 ∧
    (getProviderOrSigner wrongNetEnv true initialClient).1 =
      .error ⟨"Change network to Goerli", none⟩ ∧
    (connectWallet wrongNetEnv initialClient).walletConnected = false :=
  ⟨rfl, rfl,
   ((getProviderOrSigner_network_check wrongNetEnv true initialClient 1 rfl rfl).2
      (by decide)).1,
   ((getProviderOrSigner_network_check wrongNetEnv true initialClient 1 rfl rfl).2
      (by decide)).2.2⟩

/-! ## State-changing operations -/

/-- C7 (evaluation at the failing input): the transaction is accepted and
`txn.wait()` is rejected.  `loading` was false before each operation and is
true after it: `setLoading(true)` has run and the `catch` block does not
reset it. -/
theorem wait_failure_leaves_loading_set :
    initialClient.loading = false ∧
    (createProposal waitFailEnv initialClient).loading = true ∧
    (voteOnProposal waitFailEnv 0 "YAY" initialClient).2.loading = true ∧
    (executeProposal waitFailEnv 0 initialClient).2.loading = true := by
  decide

/-- The `catch` block of the vote and execute handlers changes the trace
only. -/
theorem catchAlert_data (e : JSError) (s : Client) :
    (catchAlert e s).2.data = s.data := by
  unfold catchAlert
  cases e.data <;> rfl

/-- The handler `getProviderOrSigner` changes the trace only. -/
theorem getProviderOrSigner_data (env : Env) (b : Bool) (s : Client) :
    (getProviderOrSigner env b s).2.data = s.data := by
  unfold getProviderOrSigner
  cases env.connect with
  | error e => rfl
  | ok u =>
    cases env.getNetwork with
    | error e => rfl
    | ok c =>
      by_cases hc : c = 5
      · cases b <;> simp [hc, Client.emit, Client.data]
      · simp [hc, Client.emit, Client.data]

/-- The part of C7 the code keeps: when the signer cannot be acquired, or the
contract call is rejected at submission, `executeProposal` leaves every state
variable as it was. -/
theorem executeProposal_early_failure (env : Env) (id : Nat) (s : Client)
    (h : (∃ e, (getProviderOrSigner env true
            (s.emit (.invoke .executeProposal))).1 = .error e) ∨
         (∃ e, env.executeProposal id = .error e)) :
    (executeProposal env id s).2.data = s.data := by
  have hg := getProviderOrSigner_data env true (s.emit (.invoke .executeProposal))
  rcases hs : getProviderOrSigner env true (s.emit (.invoke .executeProposal)) with ⟨r, s1⟩
  rw [hs] at hg
  simp only [executeProposal, hs]
  cases r with
  | error e => simp only [catchAlert_data]; exact hg
  | ok hdl =>
    rcases h with ⟨e, he⟩ | ⟨e, he⟩
    · rw [hs] at he; cases he
    · simp only [he, catchAlert_data]; exact hg

/-- The same for `voteOnProposal`. -/
theorem voteOnProposal_early_failure (env : Env) (id : Nat) (vote : String)
    (s : Client)
    (h : (∃ e, (getProviderOrSigner env true
            (s.emit (.invoke .voteOnProposal))).1 = .error e) ∨
         (∃ e, env.voteOnProposal (voteCode vote) id = .error e)) :
    (voteOnProposal env id vote s).2.data = s.data := by
  have hg := getProviderOrSigner_data env true (s.emit (.invoke .voteOnProposal))
  rcases hs : getProviderOrSigner env true (s.emit (.invoke .voteOnProposal)) with ⟨r, s1⟩
  rw [hs] at hg
  simp only [voteOnProposal, hs]
  cases r with
  | error e => simp only [catchAlert_data]; exact hg
  | ok hdl =>
    rcases h with ⟨e, he⟩ | ⟨e, he⟩
    · rw [hs] at he; cases he
    · simp only [he, catchAlert_data]; exact hg

/-- The same for `createProposal`. -/
theorem createProposal_early_failure (env : Env) (s : Client)
    (h : (∃ e, (getProviderOrSigner env true
            (s.emit (.invoke .createProposal))).1 = .error e) ∨
         (∃ e, env.createProposal s.fakeNftTokenId = .error e)) :
    (createProposal env s).data = s.data := by
  have hg := getProviderOrSigner_data env true (s.emit (.invoke .createProposal))
  rcases hs : getProviderOrSigner env true (s.emit (.invoke .createProposal)) with ⟨r, s1⟩
  rw [hs] at hg
  have hf : s1.fakeNftTokenId = s.fakeNftTokenId := by
    have := congrArg (fun d => d.2.2.2.2.2.1) hg
    simpa [Client.data, Client.emit] using this
  simp only [createProposal, hs]
  cases r with
  | error e => exact hg
  | ok hdl =>
    rcases h with ⟨e, he⟩ | ⟨e, he⟩
    · rw [hs] at he; cases he
    · simp only [hf, he]; exact hg

/-! ## Resynchronisation after a confirmed transaction -/

/-- The handler `getProviderOrSigner` only appends to the trace. -/
theorem getProviderOrSigner_log (env : Env) (b : Bool) (s : Client) :
    ∃ evs, (getProviderOrSigner env b s).2.log = s.log ++ evs := by
  unfold getProviderOrSigner
  cases env.connect with
  | error e => exact ⟨_, rfl⟩
  | ok u =>
    cases env.getNetwork with
    | error e => exact ⟨_, rfl⟩
    | ok c =>
      by_cases hc : c = 5
      · cases b <;> exact ⟨[Event.invoke Fn.getProviderOrSigner], by simp [hc, Client.emit]⟩
      · exact ⟨[Event.invoke Fn.getProviderOrSigner,
          Event.alert "Change the network to Goerli"], by simp [hc, Client.emit]⟩

/-- The function `fetchProposalById` only appends to the trace. -/
theorem fetchProposalById_log (env : Env) (i : Nat) (s : Client) :
    ∃ evs, (fetchProposalById env i s).2.log = s.log ++ evs := by
  obtain ⟨evs, h⟩ := getProviderOrSigner_log env false (s.emit (.invoke .fetchProposalById))
  rcases hs : getProviderOrSigner env false (s.emit (.invoke .fetchProposalById)) with ⟨r, s1⟩
  rw [hs] at h
  simp only [Client.emit] at h
  simp only [fetchProposalById, hs]
  cases r with
  | error e =>
    exact ⟨Event.invoke Fn.fetchProposalById :: evs ++ [Event.consoleError e],
      by simp [Client.emit, h]⟩
  | ok hdl =>
    cases env.proposals i with
    | error e =>
      exact ⟨Event.invoke Fn.fetchProposalById :: evs ++ [Event.consoleError e],
        by simp [Client.emit, h]⟩
    | ok raw => exact ⟨Event.invoke Fn.fetchProposalById :: evs, by simp [h]⟩

/-- The loop of `fetchAllProposals` only appends to the trace. -/
theorem fetchLoop_log (env : Env) :
    ∀ (k i : Nat) (acc : List (Option Proposal)) (s : Client),
      ∃ evs, (fetchLoop env k i acc s).2.log = s.log ++ evs := by
  intro k
  induction k with
  | zero => intro i acc s; exact ⟨[], by simp [fetchLoop]⟩
  | succ k ih =>
    intro i acc s
    obtain ⟨e1, h1⟩ := fetchProposalById_log env i s
    obtain ⟨e2, h2⟩ := ih (i + 1) (acc ++ [(fetchProposalById env i s).1])
      (fetchProposalById env i s).2
    exact ⟨e1 ++ e2, by simp only [fetchLoop]; rw [h2, h1, List.append_assoc]⟩

/-- The trace of `fetchAllProposals` starts with its own entry. -/
theorem fetchAllProposals_log (env : Env) (s : Client) :
    ∃ evs, (fetchAllProposals env s).log =
      s.log ++ Event.invoke Fn.fetchAllProposals :: evs := by
  obtain ⟨evs, h⟩ := fetchLoop_log env (s.emit (.invoke .fetchAllProposals)).numProposals
    0 [] (s.emit (.invoke .fetchAllProposals))
  exact ⟨evs, by simp only [fetchAllProposals]; rw [h]; simp [Client.emit]⟩

/-- Dropping the events before the first confirmation. -/
theorem dropWhile_to_confirmed (pre rest : List Event)
    (hpre : Event.confirmed ∉ pre) :
    (pre ++ Event.confirmed :: rest).dropWhile (fun e => e != Event.confirmed) =
      Event.confirmed :: rest := by
  induction pre with
  | nil => simp [List.dropWhile]
  | cons a pre ih =>
    have ha : a ≠ Event.confirmed := fun h => hpre (by simp [h])
    have hp : Event.confirmed ∉ pre := fun h => hpre (by simp [h])
    have hb : (a != Event.confirmed) = true := by simpa using ha
    simp [List.dropWhile, hb, ih hp]

/-- The trace of a confirmed `createProposal` holds the entry into
`getNumProposalsInDAO` after the confirmation. -/
theorem confirmed_then_getNum (tok : String) (rest : List Event) :
    ((([Event.invoke Fn.createProposal, Event.invoke Fn.getProviderOrSigner,
        Event.submitted (ChainCall.createProposal tok), Event.confirmed,
        Event.invoke Fn.getNumProposalsInDAO] ++ rest).dropWhile
      (fun e => e != Event.confirmed)).contains
        (Event.invoke Fn.getNumProposalsInDAO)) = true := by
  have hd := dropWhile_to_confirmed
    [Event.invoke Fn.createProposal, Event.invoke Fn.getProviderOrSigner,
      Event.submitted (ChainCall.createProposal tok)]
    (Event.invoke Fn.getNumProposalsInDAO :: rest) (by simp)
  simp only [List.cons_append, List.nil_append] at hd ⊢
  rw [hd]
  simp

/-- The events appended after `s` when the trace is `s.log ++ evs`. -/
theorem newEvents_of_log (s t : Client) (evs : List Event)
    (h : t.log = s.log ++ evs) : newEvents s t = evs := by
  simp [newEvents, h]

/-- A run of `fetchAllProposals` started right after a confirmation is an
entry into `fetchAllProposals` after that confirmation. -/
theorem fetchAllProposals_after_confirmation (env : Env) (s mid : Client)
    (pre : List Event) (hpre : Event.confirmed ∉ pre)
    (hlog : mid.log = s.log ++ pre ++ [Event.confirmed]) :
    invokedAfterConfirmation Fn.fetchAllProposals
      (newEvents s (fetchAllProposals env mid)) = true := by
  obtain ⟨evs, h⟩ := fetchAllProposals_log env mid
  have hn : newEvents s (fetchAllProposals env mid) =
      pre ++ Event.confirmed :: Event.invoke Fn.fetchAllProposals :: evs :=
    newEvents_of_log s _ _ (by rw [h, hlog]; simp)
  rw [hn, invokedAfterConfirmation, dropWhile_to_confirmed pre _ hpre]
  simp

/-- C9 (as stated, refuted at a concrete input): in `goodEnv` the signer is
acquired, the transaction is accepted and confirmed, and `createProposal`
never enters `fetchAllProposals`; the catalog stays empty although the chain
holds two proposals. -/
theorem createProposal_skips_fetchAllProposals :
    (getProviderOrSigner goodEnv true initialClient).1 = .ok Handle.signer ∧
    Event.confirmed ∈ (createProposal goodEnv initialClient).log ∧
    Event.invoke Fn.fetchAllProposals ∉ (createProposal goodEnv initialClient).log ∧
    invokedAfterConfirmation Fn.fetchAllProposals
      (newEvents initialClient (createProposal goodEnv initialClient)) = false ∧
    (createProposal goodEnv initialClient).numProposals = 2 ∧
    (createProposal goodEnv initialClient).proposals = [] := by
  refine ⟨rfl, by decide, by decide, by decide, by decide, by decide⟩

/-- C9 (amended): on the required network, when the transaction is accepted
and confirmed, `voteOnProposal` and `executeProposal` enter
`fetchAllProposals` after the confirmation; `createProposal` enters
`getNumProposalsInDAO` after the confirmation and does not enter
`fetchAllProposals`. -/
theorem writes_resync_after_confirmation (env : Env) (s : Client)
    (hconn : env.connect = .ok ()) (hnet : env.getNetwork = .ok 5) :
    (∀ id vote txn, env.voteOnProposal (voteCode vote) id = .ok txn →
      txn.wait = .ok () →
      invokedAfterConfirmation Fn.fetchAllProposals
        (newEvents s (voteOnProposal env id vote s).2) = true) ∧
    (∀ id txn, env.executeProposal id = .ok txn → txn.wait = .ok () →
      invokedAfterConfirmation Fn.fetchAllProposals
        (newEvents s (executeProposal env id s).2) = true) ∧
    (∀ txn, env.createProposal s.fakeNftTokenId = .ok txn → txn.wait = .ok () →
      invokedAfterConfirmation Fn.getNumProposalsInDAO
        (newEvents s (createProposal env s)) = true ∧
      Event.invoke Fn.fetchAllProposals ∉ newEvents s (createProposal env s)) := by
  refine ⟨?_, ?_, ?_⟩
  · intro id vote txn hsub hwait
    simp only [voteOnProposal, getProviderOrSigner_ok env true _ hconn hnet, hsub, hwait]
    exact fetchAllProposals_after_confirmation env s _
      [Event.invoke Fn.voteOnProposal, Event.invoke Fn.getProviderOrSigner,
        Event.submitted (ChainCall.voteOnProposal (voteCode vote) id)]
      (by simp) (by simp [Client.emit])
  · intro id txn hsub hwait
    simp only [executeProposal, getProviderOrSigner_ok env true _ hconn hnet, hsub, hwait]
    exact fetchAllProposals_after_confirmation env s _
      [Event.invoke Fn.executeProposal, Event.invoke Fn.getProviderOrSigner,
        Event.submitted (ChainCall.executeProposal id)]
      (by simp) (by simp [Client.emit])
  · intro txn hsub hwait
    have hf : ((s.emit (.invoke .createProposal)).emit
        (.invoke .getProviderOrSigner)).fakeNftTokenId = s.fakeNftTokenId := rfl
    cases hn : env.numProposals with
    | error e =>
      have hl : (createProposal env s).log = s.log ++
          [Event.invoke Fn.createProposal, Event.invoke Fn.getProviderOrSigner,
            Event.submitted (ChainCall.createProposal s.fakeNftTokenId),
            Event.confirmed, Event.invoke Fn.getNumProposalsInDAO,
            Event.invoke Fn.getProviderOrSigner, Event.consoleError e] := by
        simp [createProposal, getNumProposalsInDAO,
          getProviderOrSigner_ok env _ _ hconn hnet, hf, hsub, hwait, hn, Client.emit]
      rw [newEvents_of_log s _ _ hl]
      refine ⟨?_, by simp⟩
      rw [invokedAfterConfirmation]
      exact confirmed_then_getNum s.fakeNftTokenId _
    | ok n =>
      have hl : (createProposal env s).log = s.log ++
          [Event.invoke Fn.createProposal, Event.invoke Fn.getProviderOrSigner,
            Event.submitted (ChainCall.createProposal s.fakeNftTokenId),
            Event.confirmed, Event.invoke Fn.getNumProposalsInDAO,
            Event.invoke Fn.getProviderOrSigner] := by
        simp [createProposal, getNumProposalsInDAO,
          getProviderOrSigner_ok env _ _ hconn hnet, hf, hsub, hwait, hn, Client.emit]
      rw [newEvents_of_log s _ _ hl]
      refine ⟨?_, by simp⟩
      rw [invokedAfterConfirmation]
      exact confirmed_then_getNum s.fakeNftTokenId _

/-- Witness of C9 (amended) in `goodEnv`: a confirmed vote and a confirmed
execution enter `fetchAllProposals`, a confirmed creation enters
`getNumProposalsInDAO`. -/
theorem writes_resync_after_confirmation_witness :
    goodEnv.connect = .ok () ∧ goodEnv.getNetwork = .ok 5 ∧
    invokedAfterConfirmation Fn.fetchAllProposals
      (newEvents initialClient (voteOnProposal goodEnv 0 "YAY" initialClient).2) = true ∧
    invokedAfterConfirmation Fn.fetchAllProposals
      (newEvents initialClient (executeProposal goodEnv 0 initialClient).2) = true ∧
    invokedAfterConfirmation Fn.getNumProposalsInDAO
      (newEvents initialClient (createProposal goodEnv initialClient)) = true :=
  ⟨rfl, rfl,
   (writes_resync_after_confirmation goodEnv initialClient rfl rfl).1 0 "YAY" ⟨.ok ()⟩ rfl rfl,
   (writes_resync_after_confirmation goodEnv initialClient rfl rfl).2.1 0 ⟨.ok ()⟩ rfl rfl,
   ((writes_resync_after_confirmation goodEnv initialClient rfl rfl).2.2 ⟨.ok ()⟩ rfl rfl).1⟩

end CryptoDevsDAO
